import Mathlib

/-!
Shallow embedding of the real-time detection pipeline of
`time-spent-on-movies-duration-tracker` (src/modules/YoloE.py and
src/img-search.py), together with theorems checking the natural-language
specification against it.

Conventions of the embedding:
* numpy images and masks are abstract types; the cv2 / numpy primitives the
  code calls (GaussianBlur, fillPoly, addWeighted, masked assignment,
  rectangle, putText, getTextSize) are fields of a `CvOps` record, so the
  theorems quantify over every possible behaviour of those library calls;
* Python floats are modelled as rationals;
* a Python function that can raise is modelled in `Except String`;
* the threaded engine (queues plus accelerator callbacks) is modelled as a
  state machine with explicit queues; the accelerator worker advancing one
  frame is the `process_one` step, interleaved nondeterministically through
  event traces.
-/

deriving instance DecidableEq for Except

namespace YoloE

/-- The ten-entry colour palette `COLOR_WHEEL` of src/modules/YoloE.py. -/
def COLOR_WHEEL : List (Nat × Nat × Nat) :=
  [(255, 0, 0), (0, 255, 0), (0, 0, 255), (255, 255, 0), (255, 0, 255),
   (0, 255, 255), (128, 0, 128), (255, 165, 0), (0, 128, 128), (128, 128, 0)]

/-- One detection as consumed by `plot_dets`: the entry of the zip
`zip(dets.boxes.cls, dets.boxes.xyxy, dets.masks)`.  The class index is the
value of `int(cls_idx)` (non-negative for model outputs), `xyxy` the integer
corner coordinates, `seg` the optional segmentation polygon `seg.xy`. -/
structure DetItem where
  cls : Nat
  xyxy : Int × Int × Int × Int
  seg : Option (List (Int × Int))
deriving DecidableEq

/-- A detection result as consumed by `plot_dets`: `dets.names` (the
`getattr(dets, "names", [])` class-name table) plus the parallel lists of
boxes and masks, fused into one list of `DetItem`. -/
structure Dets where
  names : List String
  items : List DetItem
deriving DecidableEq

/-- The cv2 / numpy primitives used by `plot_dets`, kept abstract: the
theorems hold for every behaviour of the underlying image library. -/
structure CvOps (Image Mask : Type) where
  shape : Image → Nat × Nat
  zeros_like : Image → Image
  empty_mask : Nat → Nat → Mask
  fill_poly_mask : Mask → List (Int × Int) → Mask
  any_mask : Mask → Bool
  gaussian_blur : Image → ℚ → Image
  add_weighted : Image → ℚ → Image → ℚ → ℚ → Image
  masked_copy : Image → Image → Mask → Image
  fill_poly_img : Image → List (Int × Int) → Nat × Nat × Nat → Image
  rectangle : Image → (Int × Int) → (Int × Int) → Nat × Nat × Nat → Nat → Image
  text_size : String → ℚ → (Nat × Nat) × Nat
  put_text : Image → String → Int × Int → ℚ → Nat × Nat × Nat → Nat → Image

/-- Python `classes[int(cls_idx)] if classes else str(int(cls_idx))`:
indexing an out-of-range position raises `IndexError`. -/
def class_name_of (classes : List String) (cls : Nat) : Except String String :=
  if classes.isEmpty then Except.ok (toString cls)
  else
    match classes.get? cls with
    | some s => Except.ok s
    | none => Except.error "IndexError: list index out of range"

/-- Python `COLOR_WHEEL[int(cls_idx) % len(COLOR_WHEEL)]`. -/
def color_of (cls : Nat) : Nat × Nat × Nat :=
  COLOR_WHEEL.getD (cls % COLOR_WHEEL.length) (0, 0, 0)

/-- One iteration of the first loop of `plot_dets` (build union mask and
tint-only overlay): skip by class filter, skip a missing segmentation, fill
the polygon into the union mask, and into the overlay when `do_seg`. -/
def step3 {I M : Type} (ops : CvOps I M) (classes : List String)
    (filt : Option (List String)) (do_seg : Bool) (acc : M × I)
    (it : DetItem) : Except String (M × I) := do
  let cn ← class_name_of classes it.cls
  match filt with
  | some fl =>
    if cn ∈ fl then
      match it.seg with
      | none => pure acc
      | some poly =>
        pure (ops.fill_poly_mask acc.1 poly,
          if do_seg then ops.fill_poly_img acc.2 poly (color_of it.cls) else acc.2)
    else pure acc
  | none =>
    match it.seg with
    | none => pure acc
    | some poly =>
      pure (ops.fill_poly_mask acc.1 poly,
        if do_seg then ops.fill_poly_img acc.2 poly (color_of it.cls) else acc.2)

/-- One iteration of the final loop of `plot_dets` (boxes and labels): skip
by class filter, draw the rectangle when `do_det`, draw the outlined label
at the clamped box centroid when `do_label`. -/
def step5 {I M : Type} (ops : CvOps I M) (classes : List String)
    (filt : Option (List String)) (do_det do_label : Bool) (h w : Nat)
    (res : I) (it : DetItem) : Except String I := do
  let cn ← class_name_of classes it.cls
  let keep : Bool :=
    match filt with
    | some fl => decide (cn ∈ fl)
    | none => true
  if keep then
    let x1 := it.xyxy.1
    let y1 := it.xyxy.2.1
    let x2 := it.xyxy.2.2.1
    let y2 := it.xyxy.2.2.2
    let cx := Int.fdiv (x1 + x2) 2
    let cy := Int.fdiv (y1 + y2) 2
    let color := color_of it.cls
    let res1 := if do_det then ops.rectangle res (x1, y1) (x2, y2) color 2 else res
    if do_label then
      let ts := ops.text_size cn (7 / 10)
      let tw : Int := ts.1.1
      let th : Int := ts.1.2
      let baseline : Int := ts.2
      let text_x := max (min (cx - tw / 2) ((w : Int) - tw)) 0
      let text_y := max (min (cy + th / 2) ((h : Int) - baseline)) th
      pure (ops.put_text
        (ops.put_text res1 cn (text_x, text_y) (7 / 10) (0, 0, 0) 3)
        cn (text_x, text_y) (7 / 10) color 1)
    else pure res1
  else pure res

/-- Embedding of the static method `YoloE.plot_dets` of src/modules/YoloE.py.
Background modes: normal, remove (black), blur; requesting remove and blur
together raises `ValueError` before anything is drawn; blur applies only when
the sigma is positive; detected regions are pasted (optionally tinted) onto
the chosen background and boxes/labels are drawn last. -/
def plot_dets {I M : Type} (ops : CvOps I M) (img : I) (dets : Dets)
    (filt : Option (List String)) (do_seg do_det do_label : Bool)
    (remove_background do_blur : Bool) (alpha : ℚ)
    (blur_sigma : Option ℚ) : Except String I :=
  let classes := dets.names
  let h := (ops.shape img).1
  let w := (ops.shape img).2
  let overlay := ops.zeros_like img
  let mask_all := ops.empty_mask h w
  if remove_background && do_blur then
    Except.error "remove_background and do_blur cannot both be True."
  else
    let sigma : ℚ := blur_sigma.getD 0
    let base :=
      if remove_background then ops.zeros_like img
      else if do_blur && decide (0 < sigma) then ops.gaussian_blur img sigma
      else img
    do
      let mo ← dets.items.foldlM (step3 ops classes filt do_seg) (mask_all, overlay)
      let result0 :=
        if ops.any_mask mo.1 then
          if do_seg then
            ops.masked_copy base (ops.add_weighted img (1 - alpha) mo.2 alpha 0) mo.1
          else ops.masked_copy base img mo.1
        else base
      if do_det || do_label then
        dets.items.foldlM (step5 ops classes filt do_det do_label h w) result0
      else pure result0

/-- The `BBox` dataclass of src/modules/YoloE.py. -/
structure BBox where
  cls : String
  bbox : List (Int × Int × Int × Int)
deriving DecidableEq

/-- The `AnnotatedFrame` dataclass of src/modules/YoloE.py; the engine only
ever constructs it with the image argument, leaving the defaults. -/
structure AnnotatedFrame (I : Type) where
  image : I
  num_detections : Nat := 0
  detections : List BBox := []
deriving DecidableEq

/-- Embedding of the output path `YoloE._data_sink`: render the frame with
`plot_dets` under the engine's current flags; on success emit the annotated
image, on any rendering exception emit the unannotated source frame. -/
def data_sink {I M : Type} (ops : CvOps I M) (orig_frame : I) (dets : Dets)
    (selected_classes : List String) (do_seg do_det do_label : Bool)
    (rm_background do_blur : Bool) (darkness blur_sigma : ℚ) :
    AnnotatedFrame I :=
  match plot_dets ops orig_frame dets (some selected_classes) do_seg do_det
      do_label rm_background do_blur darkness (some blur_sigma) with
  | Except.ok annotated_frame => { image := annotated_frame }
  | Except.error _ => { image := orig_frame }

/-- The queue-and-flag state of a `YoloE` engine instance.  `input_q` and
`output_q` are the bounded queues (contents only; capacity blocking is
abstracted), `output_q` entries carry the class list the predictor held when
the frame was processed, `outstanding_frames` is `_outstanding_frames`, and
`predictor_classes` is the class set baked into `_predictor`. -/
structure Engine (α : Type) where
  stopped : Bool
  input_q : List α
  output_q : List (α × List String)
  outstanding_frames : Nat
  classes : List String
  selected_classes : List String
  predictor_classes : List String
  darkness : ℚ
  blur_sigma : ℚ
deriving DecidableEq

/-- Embedding of `YoloE.put`: under the stop lock, a submission against a
stopped engine returns at once (the Python method just executes `return`,
enqueuing nothing and surfacing no error); otherwise the frame is enqueued
and the outstanding counter incremented. -/
def put {α : Type} (e : Engine α) (data : α) : Engine α :=
  if e.stopped then e
  else { e with
    input_q := e.input_q ++ [data],
    outstanding_frames := e.outstanding_frames + 1 }

/-- One step of the accelerator worker: `_data_source` pulls the next frame
from `input_q` and, through the accelerator and `_data_sink`, its processed
result lands in `output_q`, tagged with the class set the predictor holds at
that moment. -/
def process_one {α : Type} (e : Engine α) : Engine α :=
  match e.input_q with
  | [] => e
  | f :: rest =>
    { e with
      input_q := rest,
      output_q := e.output_q ++ [(f, e.predictor_classes)] }

/-- Embedding of `YoloE.get`: pop the next annotated result from `output_q`
and decrement the outstanding counter; an empty queue yields nothing (the
`queue.Empty` path, on which the counter is not decremented). -/
def get {α : Type} (e : Engine α) : Engine α × Option (α × List String) :=
  match e.output_q with
  | [] => (e, none)
  | r :: rest =>
    ({ e with output_q := rest, outstanding_frames := e.outstanding_frames - 1 },
      some r)

/-- The drain loop of `YoloE.stop`: keep calling `get` (discarding results)
until the outstanding counter reaches zero; while the loop waits on an empty
output queue the accelerator worker advances (`process_one`).  The fuel is
an upper bound on the number of loop iterations. -/
def drain_fuel {α : Type} : Nat → Engine α → Engine α
  | 0, e => e
  | n + 1, e =>
    if e.outstanding_frames = 0 then e
    else
      match e.output_q with
      | _ :: _ => drain_fuel n (get e).1
      | [] =>
        match e.input_q with
        | _ :: _ => drain_fuel n (process_one e)
        | [] => e

/-- Embedding of `YoloE.stop`: a second stop returns at once; otherwise the
pipeline is drained under the stop lock, the `None` poison pill terminates
the accelerator input stream (represented by the `stopped` flag), and the
engine is marked stopped. -/
def stop {α : Type} (e : Engine α) : Engine α :=
  if e.stopped then e
  else { drain_fuel (e.outstanding_frames + e.input_q.length) e with stopped := true }

/-- The `darkness` property setter: values outside `[0, 1]` are rejected
with a printed message, leaving the stored value unchanged. -/
def set_darkness {α : Type} (e : Engine α) (val : ℚ) : Engine α :=
  if val < 0 ∨ 1 < val then e else { e with darkness := val }

/-- The `blur_sigma` property setter: negative values are rejected with a
printed message, leaving the stored value unchanged. -/
def set_blur_sigma {α : Type} (e : Engine α) (val : ℚ) : Engine α :=
  if val < 0 then e else { e with blur_sigma := val }

/-- The `selected_classes` property setter: if any requested name is not in
the current class list the assignment is rejected with a printed message;
otherwise a copy of the list is stored. -/
def set_selected_classes {α : Type} (e : Engine α) (cs : List String) :
    Engine α :=
  if ∀ c ∈ cs, c ∈ e.classes then { e with selected_classes := cs } else e

/-- Embedding of `YoloE.update_classes`: stop (which drains the pipeline),
rebuild the predictor and the class lists for the new class set (the ONNX
export, neural-compiler run and file moves are filesystem effects with no
bearing on the queue state), then reconnect the accelerator, which clears
the stopped flag. -/
def update_classes {α : Type} (e : Engine α) (X : List String) : Engine α :=
  let e1 := stop e
  let e2 := { e1 with predictor_classes := X, classes := X }
  let e3 := set_selected_classes e2 X
  { e3 with stopped := false }

/-- External events that may hit the engine after a reconfiguration: a
submission, one step of the accelerator worker, or a result retrieval. -/
inductive Ev (α : Type) where
  | put (a : α)
  | process
  | get
deriving DecidableEq

/-- Run a trace of events, collecting every result delivered by `get`. -/
def run_trace {α : Type} (e : Engine α) :
    List (Ev α) → Engine α × List (α × List String)
  | [] => (e, [])
  | Ev.put a :: tr => run_trace (put e a) tr
  | Ev.process :: tr => run_trace (process_one e) tr
  | Ev.get :: tr =>
    let g := get e
    let r := run_trace g.1 tr
    (r.1, g.2.toList ++ r.2)

/-- The frames submitted along a trace. -/
def puts_of {α : Type} : List (Ev α) → List α
  | [] => []
  | Ev.put a :: tr => a :: puts_of tr
  | _ :: tr => puts_of tr

/-- Engine well-formedness: the outstanding counter counts exactly the
frames inside the pipeline, and a stopped engine has none in flight.  This
holds in every reachable state of the Python object. -/
def wf {α : Type} (e : Engine α) : Prop :=
  e.outstanding_frames = e.input_q.length + e.output_q.length ∧
    (e.stopped = true → e.outstanding_frames = 0)

/-- The frames currently inside the pipeline (either queue). -/
def pool {α : Type} (e : Engine α) : List α :=
  e.input_q ++ e.output_q.map Prod.fst

end YoloE

namespace ImgSearch

/-- A tracked object as read by `Demo.check_for_search_targets`: its track
id and its (possibly unset) assigned name. -/
structure TrackedObject where
  track_id : Nat
  name : Option String
deriving DecidableEq

/-- The alert-relevant state of the `Demo` window: the search-target names,
the track ids found in the previous evaluated frame, the alert display
state, and the single-shot `alert_timer` (`some` its programmed interval in
milliseconds while running). -/
structure AlertState where
  search_targets : List String
  last_found_persons : List Nat
  alert_active : Bool
  alert_message : Option String
  timer : Option Nat
deriving DecidableEq

/-- Embedding of `Demo.trigger_security_alert`: set the alert display to the
target's name, mark the alert active, and (re)start the single-shot
five-second timer. -/
def trigger_security_alert (s : AlertState) (person_name : String) :
    AlertState :=
  { s with
    alert_active := true,
    alert_message := some person_name,
    timer := some 5000 }

/-- Embedding of `Demo.clear_alert`, connected to the timer's timeout: the
alert becomes inactive and the display resets. -/
def clear_alert (s : AlertState) : AlertState :=
  { s with alert_active := false, alert_message := none }

/-- The single-shot timer firing: if it is running it stops and its timeout
slot `clear_alert` runs; otherwise nothing happens. -/
def fire_timer (s : AlertState) : AlertState :=
  match s.timer with
  | some _ => clear_alert { s with timer := none }
  | none => s

/-- One iteration of the loop of `Demo.check_for_search_targets`: the
accumulator carries the alert state, the `current_found_persons` set (as an
insertion-ordered duplicate-free list), and the names for which
`trigger_security_alert` has been called, in call order.  Python's
`if obj.name and obj.name in self.search_targets` treats a missing or empty
name as falsy. -/
def check_step :
    AlertState × List Nat × List String → TrackedObject →
      AlertState × List Nat × List String
  | (st, cur, fired), o =>
    match o.name with
    | none => (st, cur, fired)
    | some n =>
      if n ≠ "" ∧ n ∈ st.search_targets then
        let cur2 := if o.track_id ∈ cur then cur else cur ++ [o.track_id]
        if o.track_id ∈ st.last_found_persons then (st, cur2, fired)
        else (trigger_security_alert st n, cur2, fired ++ [n])
      else (st, cur, fired)

/-- Embedding of `Demo.check_for_search_targets`: with no search targets the
method returns at once; otherwise every currently tracked object whose name
is a search target is collected into `current_found_persons`, an alert is
triggered for each such object whose track id was absent from the previous
frame's found set, and the found set is replaced.  The second component
records the alerts triggered, in order. -/
def check_for_search_targets (s : AlertState)
    (tracked : List TrackedObject) : AlertState × List String :=
  if s.search_targets = [] then (s, [])
  else
    let r := tracked.foldl check_step (s, [], [])
    ({ r.1 with last_found_persons := r.2.1 }, r.2.2)

/-- The names of the tracked objects whose truthy name is among the search
targets `S` and whose track id is not in the previous found set `L`: these
are exactly the objects the loop alerts on. -/
def new_target_names (S : List String) (L : List Nat)
    (tracked : List TrackedObject) : List String :=
  tracked.filterMap fun o =>
    o.name.bind fun n =>
      if n ≠ "" ∧ n ∈ S ∧ o.track_id ∉ L then some n else none

/-- The track ids of the tracked objects whose truthy name is among the
search targets `S`: the contents of `current_found_persons`. -/
def visible_target_ids (S : List String) (tracked : List TrackedObject) :
    List Nat :=
  tracked.filterMap fun o =>
    o.name.bind fun n =>
      if n ≠ "" ∧ n ∈ S then some o.track_id else none

/-- The names `check_for_search_targets` alerts on: each tracked object with
a truthy name among the search targets whose track id was not found in the
previous frame (nothing when the target set is empty). -/
def alert_names (s : AlertState) (tracked : List TrackedObject) :
    List String :=
  if s.search_targets = [] then []
  else new_target_names s.search_targets s.last_found_persons tracked

/-- The fixed synthetic track id `track_id = 999` that
`Demo.process_face_like_mouse_click` and
`Demo.process_target_face_automatically` use for enrollment entries in the
shared tracker map. -/
def manual_upload_track_id : Nat := 999

/-- Modelled from the spec: `modules/tracker.py` (the `FaceTracker` that
assigns live track ids) is imported by src/img-search.py but absent from
src/.  Per the spec, unmatched detections spawn new tracks with a fresh
unique integer id, with no range reserved or excluded; every natural number
is therefore a reachable live track id. -/
def spec_live_track_id_reachable (_n : Nat) : Bool := true

/-- Python dict assignment `d[k] = v` on an association list. -/
def dict_set {β : Type} (m : List (Nat × β)) (k : Nat) (v : β) :
    List (Nat × β) :=
  (k, v) :: m.filter fun p => p.1 ≠ k

/-- Python `del d[k]` (guarded by `if k in d`) on an association list. -/
def dict_erase {β : Type} (m : List (Nat × β)) (k : Nat) : List (Nat × β) :=
  m.filter fun p => p.1 ≠ k

/-- Python `d.get(k)` on an association list. -/
def dict_get {β : Type} (m : List (Nat × β)) (k : Nat) : Option β :=
  (m.find? fun p => p.1 = k).map Prod.snd

/-- The tracker-map effect of starting an enrollment: the synthetic object
is stored under the fixed id 999 (`self.tracker.tracker_dict[track_id] =
fake_obj`), overwriting whatever entry holds that key. -/
def enroll_map_insert {β : Type} (m : List (Nat × β)) (fake_obj : β) :
    List (Nat × β) :=
  dict_set m manual_upload_track_id fake_obj

/-- The tracker-map effect of the enrollment's `finally` cleanup: the entry
under the fixed id 999 is deleted. -/
def enroll_map_cleanup {β : Type} (m : List (Nat × β)) : List (Nat × β) :=
  dict_erase m manual_upload_track_id

/-- Squared euclidean norm of an embedding; `np.linalg.norm(e) > 0` holds
exactly when the squared norm is positive. -/
def norm_sq (e : List ℚ) : ℚ :=
  (e.map fun x => x * x).sum

/-- The poll loop of `Demo.process_face_like_mouse_click`: the observations
are the values of `tracker_dict[999].embedding` seen at the successive
0.1-second polls that fit inside the 10-second window; the loop exits with
the first embedding of positive norm, or empty-handed. -/
def poll_embedding : List (Option (List ℚ)) → Option (List ℚ)
  | [] => none
  | some e :: rest => if 0 < norm_sq e then some e else poll_embedding rest
  | none :: rest => poll_embedding rest

/-- Python truthiness for an optional string: `None` and `""` are falsy. -/
def py_str (o : Option String) : Option String :=
  o.bind fun s => if s = "" then none else some s

/-- The environment a single enrollment call runs against: whether
`recognize_put` (or anything else in the `try` block before the poll loop)
raised, the embeddings observed by the poll loop, the profile directory
selected in the viewer, the command-line target name, the outcome of the
new-profile dialog, the gallery root, whether the resolved profile
directory exists on disk, and the numbered image files already present. -/
structure EnrollEnv where
  put_raised : Bool
  poll_obs : List (Option (List ℚ))
  selected_dir : Option String
  target_name : Option String
  add_profile_res : Option String
  db_path : String
  dir_on_disk : Bool
  existing_jpgs : List Nat
deriving DecidableEq

/-- The profile-directory resolution of `process_face_like_mouse_click`:
the selected directory if any, else a directory derived from the
command-line target name (created on demand, hence existing), else the
result of the `add_profile` dialog (a falsy result aborts the call).  The
boolean records whether the directory exists when the save is attempted. -/
def resolve_profile (env : EnrollEnv) : Option (String × Bool) :=
  match py_str env.selected_dir with
  | some p => some (p, env.dir_on_disk)
  | none =>
    match py_str env.target_name with
    | some t => some (env.db_path ++ "/" ++ t, true)
    | none =>
      match py_str env.add_profile_res with
      | none => none
      | some np => some (env.db_path ++ "/" ++ np, env.dir_on_disk)

/-- The index scan `while os.path.exists(join(profile_path, f"{i}.jpg")):
i += 1`: the first natural number not among the existing numbered files. -/
def next_free_index (existing : List Nat) : Nat :=
  ((List.range (existing.length + 1)).find? fun i => i ∉ existing).getD 0

/-- What one enrollment call persists: the profile path and image index of
the written crop, if any, and whether an embedding entry was added to the
face database. -/
structure EnrollOutcome where
  saved_file : Option (String × Nat)
  db_added : Bool
deriving DecidableEq

/-- Embedding of the persistence skeleton of
`Demo.process_face_like_mouse_click`: a recognition exception or a poll
timeout returns without writing; with an embedding in hand the profile
directory is resolved (a cancelled dialog aborts), and the crop plus the
embedding are persisted only into an existing directory distinct from the
gallery root, under the first free numbered filename. -/
def process_face_like_mouse_click (env : EnrollEnv) : EnrollOutcome :=
  if env.put_raised then { saved_file := none, db_added := false }
  else
    match poll_embedding env.poll_obs with
    | none => { saved_file := none, db_added := false }
    | some _ =>
      match resolve_profile env with
      | none => { saved_file := none, db_added := false }
      | some (pp, on_disk) =>
        if on_disk ∧ pp ≠ env.db_path then
          { saved_file := some (pp, next_free_index env.existing_jpgs),
            db_added := true }
        else { saved_file := none, db_added := false }

end ImgSearch

namespace Concrete

/-- A concrete image: a grid of RGB byte triples. -/
def CImage : Type := List (List (Nat × Nat × Nat))

instance : DecidableEq CImage := by
  unfold CImage
  infer_instance

/-- A concrete mask: a grid of booleans (`true` marking 255). -/
def CMask : Type := List (List Bool)

instance : DecidableEq CMask := by
  unfold CMask
  infer_instance

/-- Height and width of a concrete image. -/
def c_shape (img : CImage) : Nat × Nat :=
  (img.length, (img.headD []).length)

/-- A black image of the same shape. -/
def c_zeros (img : CImage) : CImage :=
  img.map fun row => row.map fun _ => (0, 0, 0)

/-- An all-false mask of the given shape. -/
def c_empty_mask (h w : Nat) : CMask :=
  List.replicate h (List.replicate w false)

/-- Mark one cell of a mask. -/
def c_set_cell (m : CMask) (y x : Nat) : CMask :=
  m.set y ((m.getD y []).set x true)

/-- A crude polygon fill marking the polygon's vertices. -/
def c_fill_poly_mask (m : CMask) (poly : List (Int × Int)) : CMask :=
  poly.foldl (fun acc p => c_set_cell acc p.2.toNat p.1.toNat) m

/-- Whether any mask cell is set. -/
def c_any_mask (m : CMask) : Bool :=
  m.any fun row => row.any id

/-- A stand-in Gaussian blur (any behaviour will do for a witness). -/
def c_blur (img : CImage) (_sigma : ℚ) : CImage :=
  img.map fun row => row.map fun _ => (1, 1, 1)

/-- A stand-in weighted blend taking the overlay. -/
def c_add_weighted (_a : CImage) (_wa : ℚ) (b : CImage) (_wb : ℚ) (_g : ℚ) :
    CImage := b

/-- Per-pixel masked copy: where the mask is set take the source pixel. -/
def c_masked_copy (dst src : CImage) (m : CMask) : CImage :=
  (List.zip dst (List.zip src m)).map fun rows =>
    (List.zip rows.1 (List.zip rows.2.1 rows.2.2)).map fun c =>
      if c.2.2 then c.2.1 else c.1

/-- A stand-in polygon tint marking the polygon's vertices with the colour. -/
def c_fill_poly_img (img : CImage) (poly : List (Int × Int))
    (color : Nat × Nat × Nat) : CImage :=
  poly.foldl
    (fun acc p =>
      acc.set p.2.toNat ((acc.getD p.2.toNat []).set p.1.toNat color))
    img

/-- A stand-in rectangle drawing the two corners. -/
def c_rectangle (img : CImage) (p1 p2 : Int × Int)
    (color : Nat × Nat × Nat) (_t : Nat) : CImage :=
  c_fill_poly_img img [p1, p2] color

/-- A stand-in text measurement. -/
def c_text_size (_s : String) (_scale : ℚ) : (Nat × Nat) × Nat :=
  ((10, 10), 2)

/-- A stand-in text drawing marking the anchor pixel. -/
def c_put_text (img : CImage) (_s : String) (anchor : Int × Int)
    (_scale : ℚ) (color : Nat × Nat × Nat) (_t : Nat) : CImage :=
  img.set anchor.2.toNat ((img.getD anchor.2.toNat []).set anchor.1.toNat color)

/-- A concrete instantiation of the image-library operations, used to
evaluate the engine on explicit inputs. -/
def cv_c_ops : YoloE.CvOps CImage CMask where
  shape := c_shape
  zeros_like := c_zeros
  empty_mask := c_empty_mask
  fill_poly_mask := c_fill_poly_mask
  any_mask := c_any_mask
  gaussian_blur := c_blur
  add_weighted := c_add_weighted
  masked_copy := c_masked_copy
  fill_poly_img := c_fill_poly_img
  rectangle := c_rectangle
  text_size := c_text_size
  put_text := c_put_text

/-- A one-pixel non-black test frame. -/
def c_img : CImage := [[(5, 0, 0)]]

/-- A detection result with zero detections. -/
def c_dets_empty : YoloE.Dets := { names := ["person"], items := [] }

/-- A detection result with one segmented detection of class 0. -/
def c_dets_one : YoloE.Dets :=
  { names := ["person"],
    items := [{ cls := 0, xyxy := (0, 0, 1, 1), seg := some [(0, 0)] }] }

/-- A concrete engine state with three frames in flight. -/
def c_engine : YoloE.Engine Nat :=
  { stopped := false
    input_q := [11, 12]
    output_q := [(10, ["person"])]
    outstanding_frames := 3
    classes := ["person"]
    selected_classes := ["person"]
    predictor_classes := ["person"]
    darkness := 3 / 10
    blur_sigma := 0 }

/-- A concrete engine state that has been stopped. -/
def c_engine_stopped : YoloE.Engine Nat :=
  { stopped := true
    input_q := []
    output_q := []
    outstanding_frames := 0
    classes := ["person"]
    selected_classes := ["person"]
    predictor_classes := ["person"]
    darkness := 3 / 10
    blur_sigma := 0 }

end Concrete

namespace YoloE

theorem get_fst_cons {α : Type} (e : Engine α) (r : α × List String)
    (rest : List (α × List String)) (h : e.output_q = r :: rest) :
    (get e).1 = { e with
      output_q := rest,
      outstanding_frames := e.outstanding_frames - 1 } := by
  unfold get
  rw [h]

theorem process_one_cons {α : Type} (e : Engine α) (f : α) (rest : List α)
    (h : e.input_q = f :: rest) :
    process_one e = { e with
      input_q := rest,
      output_q := e.output_q ++ [(f, e.predictor_classes)] } := by
  unfold process_one
  rw [h]

/-- The drain loop, run with enough fuel from a state whose outstanding
counter is consistent with its queues, empties both queues and the counter
and touches nothing else. -/
theorem drain_fuel_spec {α : Type} (n : Nat) :
    ∀ e : Engine α,
      e.outstanding_frames = e.input_q.length + e.output_q.length →
      e.outstanding_frames + e.input_q.length ≤ n →
      (drain_fuel n e).input_q = [] ∧ (drain_fuel n e).output_q = [] ∧
      (drain_fuel n e).outstanding_frames = 0 ∧
      (drain_fuel n e).stopped = e.stopped ∧
      (drain_fuel n e).classes = e.classes ∧
      (drain_fuel n e).selected_classes = e.selected_classes ∧
      (drain_fuel n e).predictor_classes = e.predictor_classes ∧
      (drain_fuel n e).darkness = e.darkness ∧
      (drain_fuel n e).blur_sigma = e.blur_sigma := by
  induction n with
  | zero =>
    intro e h1 h2
    have hout : e.outstanding_frames = 0 := by omega
    have hinl : e.input_q.length = 0 := by omega
    have houtl : e.output_q.length = 0 := by omega
    have hin : e.input_q = [] := List.length_eq_zero.mp hinl
    have hoq : e.output_q = [] := List.length_eq_zero.mp houtl
    simp [drain_fuel, hin, hoq, hout]
  | succ n ih =>
    intro e h1 h2
    by_cases h0 : e.outstanding_frames = 0
    · have hinl : e.input_q.length = 0 := by omega
      have houtl : e.output_q.length = 0 := by omega
      have hin : e.input_q = [] := List.length_eq_zero.mp hinl
      have hoq : e.output_q = [] := List.length_eq_zero.mp houtl
      simp [drain_fuel, hin, hoq, h0]
    · cases hoq : e.output_q with
      | cons r rest =>
        have hred : drain_fuel (n + 1) e = drain_fuel n (get e).1 := by
          conv_lhs => rw [drain_fuel]
          rw [if_neg h0, hoq]
        have hgot := get_fst_cons e r rest hoq
        have hlen : e.output_q.length = rest.length + 1 := by rw [hoq]; rfl
        have hinv : (get e).1.outstanding_frames
            = (get e).1.input_q.length + (get e).1.output_q.length := by
          rw [hgot]
          show e.outstanding_frames - 1 = e.input_q.length + rest.length
          omega
        have hbnd : (get e).1.outstanding_frames + (get e).1.input_q.length
            ≤ n := by
          rw [hgot]
          show e.outstanding_frames - 1 + e.input_q.length ≤ n
          omega
        have hres := ih (get e).1 hinv hbnd
        rw [hred]
        refine ⟨hres.1, hres.2.1, hres.2.2.1, ?_, ?_, ?_, ?_, ?_, ?_⟩
        · rw [hres.2.2.2.1, hgot]
        · rw [hres.2.2.2.2.1, hgot]
        · rw [hres.2.2.2.2.2.1, hgot]
        · rw [hres.2.2.2.2.2.2.1, hgot]
        · rw [hres.2.2.2.2.2.2.2.1, hgot]
        · rw [hres.2.2.2.2.2.2.2.2, hgot]
      | nil =>
        cases hin : e.input_q with
        | cons f rest =>
          have hred : drain_fuel (n + 1) e = drain_fuel n (process_one e) := by
            conv_lhs => rw [drain_fuel]
            rw [if_neg h0, hoq, hin]
          have hgot := process_one_cons e f rest hin
          have hlen1 : e.input_q.length = rest.length + 1 := by rw [hin]; rfl
          have hlen0 : e.output_q.length = 0 := by rw [hoq]; rfl
          have hinv : (process_one e).outstanding_frames
              = (process_one e).input_q.length
                + (process_one e).output_q.length := by
            rw [hgot]
            show e.outstanding_frames
              = rest.length + (e.output_q ++ [(f, e.predictor_classes)]).length
            rw [List.length_append]
            simp
            omega
          have hbnd : (process_one e).outstanding_frames
              + (process_one e).input_q.length ≤ n := by
            rw [hgot]
            show e.outstanding_frames + rest.length ≤ n
            omega
          have hres := ih (process_one e) hinv hbnd
          rw [hred]
          refine ⟨hres.1, hres.2.1, hres.2.2.1, ?_, ?_, ?_, ?_, ?_, ?_⟩
          · rw [hres.2.2.2.1, hgot]
          · rw [hres.2.2.2.2.1, hgot]
          · rw [hres.2.2.2.2.2.1, hgot]
          · rw [hres.2.2.2.2.2.2.1, hgot]
          · rw [hres.2.2.2.2.2.2.2.1, hgot]
          · rw [hres.2.2.2.2.2.2.2.2, hgot]
        | nil =>
          exfalso
          rw [hin, hoq] at h1
          simp at h1
          exact h0 h1

/-- `stop` on a well-formed engine leaves both queues empty, zero frames
outstanding, the engine marked stopped, and the configuration intact. -/
theorem stop_spec {α : Type} (e : Engine α) (h : wf e) :
    (stop e).input_q = [] ∧ (stop e).output_q = [] ∧
    (stop e).outstanding_frames = 0 ∧ (stop e).stopped = true ∧
    (stop e).classes = e.classes ∧
    (stop e).selected_classes = e.selected_classes ∧
    (stop e).predictor_classes = e.predictor_classes ∧
    (stop e).darkness = e.darkness ∧
    (stop e).blur_sigma = e.blur_sigma := by
  unfold stop
  by_cases hs : e.stopped
  · have h0 : e.outstanding_frames = 0 := h.2 hs
    have hinl : e.input_q.length = 0 := by
      have := h.1
      omega
    have houtl : e.output_q.length = 0 := by
      have := h.1
      omega
    simp [hs, List.length_eq_zero.mp hinl, List.length_eq_zero.mp houtl, h0]
  · have hres := drain_fuel_spec (e.outstanding_frames + e.input_q.length) e
      h.1 (le_refl _)
    rw [if_neg hs]
    exact ⟨hres.1, hres.2.1, hres.2.2.1, rfl, hres.2.2.2.2.1,
      hres.2.2.2.2.2.1, hres.2.2.2.2.2.2.1, hres.2.2.2.2.2.2.2.1,
      hres.2.2.2.2.2.2.2.2⟩

theorem pool_put_mem {α : Type} (e : Engine α) (a : α) :
    ∀ f ∈ pool (put e a), f ∈ pool e ∨ f = a := by
  intro f hf
  unfold put at hf
  by_cases hs : e.stopped
  · rw [if_pos hs] at hf
    exact Or.inl hf
  · rw [if_neg hs] at hf
    change f ∈ (e.input_q ++ [a]) ++ e.output_q.map Prod.fst at hf
    unfold pool
    simp only [List.mem_append, List.mem_singleton] at hf ⊢
    tauto

theorem pool_process_mem {α : Type} (e : Engine α) :
    ∀ f ∈ pool (process_one e), f ∈ pool e := by
  intro f hf
  cases hin : e.input_q with
  | nil =>
    unfold process_one at hf
    rw [hin] at hf
    exact hf
  | cons g rest =>
    rw [process_one_cons e g rest hin] at hf
    change f ∈ rest ++ (e.output_q ++ [(g, e.predictor_classes)]).map Prod.fst
      at hf
    unfold pool
    rw [hin]
    simp only [List.mem_append, List.mem_map, List.mem_cons,
      List.map_append] at hf ⊢
    simp at hf
    rcases hf with hf | hf | hf
    · exact Or.inl (Or.inr hf)
    · exact Or.inr (by simpa using hf)
    · exact Or.inl (Or.inl hf.symm)

theorem put_predictor {α : Type} (e : Engine α) (a : α) :
    (put e a).predictor_classes = e.predictor_classes := by
  unfold put
  by_cases hs : e.stopped <;> simp [hs]

theorem process_one_predictor {α : Type} (e : Engine α) :
    (process_one e).predictor_classes = e.predictor_classes := by
  cases hin : e.input_q with
  | nil => unfold process_one; rw [hin]
  | cons g rest => rw [process_one_cons e g rest hin]

theorem put_output {α : Type} (e : Engine α) (a : α) :
    (put e a).output_q = e.output_q := by
  unfold put
  by_cases hs : e.stopped <;> simp [hs]

theorem process_one_output_mem {α : Type} (e : Engine α) (X : List String)
    (h1 : e.predictor_classes = X) (h2 : ∀ p ∈ e.output_q, p.2 = X) :
    ∀ p ∈ (process_one e).output_q, p.2 = X := by
  intro p hp
  cases hin : e.input_q with
  | nil =>
    unfold process_one at hp
    rw [hin] at hp
    exact h2 p hp
  | cons g rest =>
    rw [process_one_cons e g rest hin] at hp
    simp at hp
    rcases hp with hp | hp
    · exact h2 p hp
    · rw [hp, h1]

/-- Along any trace of submissions, worker steps and retrievals run from a
state with predictor class set `X`, every result delivered carries tag `X`
(when the pending results already do), and every frame anywhere in the
pipeline or delivered entered it either before the trace or by one of the
trace's submissions. -/
theorem run_trace_spec {α : Type} (X : List String) :
    ∀ (tr : List (Ev α)) (e : Engine α),
      e.predictor_classes = X →
      (∀ p ∈ e.output_q, p.2 = X) →
      (∀ p ∈ (run_trace e tr).2, p.2 = X ∧ p.1 ∈ pool e ++ puts_of tr) ∧
      (∀ p ∈ (run_trace e tr).1.output_q, p.2 = X) ∧
      (∀ f ∈ pool (run_trace e tr).1, f ∈ pool e ++ puts_of tr) ∧
      (run_trace e tr).1.predictor_classes = X := by
  intro tr
  induction tr with
  | nil =>
    intro e h1 h2
    refine ⟨by simp [run_trace], by simpa [run_trace] using h2, ?_,
      by simpa [run_trace] using h1⟩
    intro f hf
    simpa [run_trace, puts_of] using hf
  | cons ev tr ih =>
    intro e h1 h2
    cases ev with
    | put a =>
      have hpred : (put e a).predictor_classes = X := by
        rw [put_predictor]; exact h1
      have hout : ∀ p ∈ (put e a).output_q, p.2 = X := by
        rw [put_output]; exact h2
      have hrec := ih (put e a) hpred hout
      have hframe : ∀ g, g ∈ pool (put e a) ++ puts_of tr →
          g ∈ pool e ++ puts_of (Ev.put a :: tr) := by
        intro g hg
        simp [puts_of] at hg ⊢
        rcases hg with hg | hg
        · rcases pool_put_mem e a g hg with hh | hh
          · exact Or.inl hh
          · exact Or.inr (Or.inl hh)
        · exact Or.inr (Or.inr hg)
      refine ⟨?_, ?_, ?_, ?_⟩
      · intro p hp
        have := hrec.1 p (by simpa [run_trace] using hp)
        exact ⟨this.1, hframe p.1 this.2⟩
      · intro p hp
        exact hrec.2.1 p (by simpa [run_trace] using hp)
      · intro f hf
        exact hframe f (hrec.2.2.1 f (by simpa [run_trace] using hf))
      · simpa [run_trace] using hrec.2.2.2
    | process =>
      have hpred : (process_one e).predictor_classes = X := by
        rw [process_one_predictor]; exact h1
      have hout := process_one_output_mem e X h1 h2
      have hrec := ih (process_one e) hpred hout
      have hframe : ∀ g, g ∈ pool (process_one e) ++ puts_of tr →
          g ∈ pool e ++ puts_of (Ev.process :: tr) := by
        intro g hg
        simp [puts_of] at hg ⊢
        rcases hg with hg | hg
        · exact Or.inl (pool_process_mem e g hg)
        · exact Or.inr hg
      refine ⟨?_, ?_, ?_, ?_⟩
      · intro p hp
        have := hrec.1 p (by simpa [run_trace] using hp)
        exact ⟨this.1, hframe p.1 this.2⟩
      · intro p hp
        exact hrec.2.1 p (by simpa [run_trace] using hp)
      · intro f hf
        exact hframe f (hrec.2.2.1 f (by simpa [run_trace] using hf))
      · simpa [run_trace] using hrec.2.2.2
    | get =>
      cases hoq : e.output_q with
      | nil =>
        have hg1 : (get e).1 = e := by
          unfold get
          rw [hoq]
        have hg2 : (get e).2 = none := by
          unfold get
          rw [hoq]
        have hrec := ih e h1 h2
        refine ⟨?_, ?_, ?_, ?_⟩
        · intro p hp
          simp only [run_trace] at hp
          rw [hg1, hg2] at hp
          simp at hp
          have := hrec.1 p hp
          refine ⟨this.1, ?_⟩
          simpa [puts_of] using this.2
        · intro p hp
          simp only [run_trace] at hp
          rw [hg1] at hp
          exact hrec.2.1 p hp
        · intro f hf
          simp only [run_trace] at hf
          rw [hg1] at hf
          have := hrec.2.2.1 f hf
          simpa [puts_of] using this
        · simp only [run_trace]
          rw [hg1]
          exact hrec.2.2.2
      | cons r rest =>
        have hg1 := get_fst_cons e r rest hoq
        have hg2 : (get e).2 = some r := by
          unfold get
          rw [hoq]
        have hpred : (get e).1.predictor_classes = X := by
          rw [hg1]; exact h1
        have hout : ∀ p ∈ (get e).1.output_q, p.2 = X := by
          rw [hg1]
          intro p hp
          exact h2 p (by rw [hoq]; exact List.mem_cons_of_mem r hp)
        have hrec := ih (get e).1 hpred hout
        have hframe : ∀ g, g ∈ pool (get e).1 ++ puts_of tr →
            g ∈ pool e ++ puts_of (Ev.get :: tr) := by
          intro g hg
          simp [puts_of] at hg ⊢
          rcases hg with hg | hg
          · rw [hg1] at hg
            unfold pool at hg ⊢
            simp at hg
            rw [hoq]
            simp
            tauto
          · exact Or.inr hg
        refine ⟨?_, ?_, ?_, ?_⟩
        · intro p hp
          simp only [run_trace] at hp
          rw [hg2] at hp
          rcases List.mem_append.mp hp with hp1 | hp1
          · have hpr : p = r := by simpa using hp1
            have hpool : r.1 ∈ pool e := by
              unfold pool
              rw [hoq]
              simp
            refine ⟨?_, ?_⟩
            · rw [hpr]
              exact h2 r (by rw [hoq]; exact List.mem_cons_self r rest)
            · rw [hpr]
              exact List.mem_append.mpr (Or.inl hpool)
          · have := hrec.1 p hp1
            exact ⟨this.1, hframe p.1 this.2⟩
        · intro p hp
          simp only [run_trace] at hp
          exact hrec.2.1 p hp
        · intro f hf
          simp only [run_trace] at hf
          exact hframe f (hrec.2.2.1 f hf)
        · simp only [run_trace]
          exact hrec.2.2.2

end YoloE

/-- C1: for every frame, detection result, and flag configuration, rendering
with `remove_background = true` and `do_blur = true` raises the
`ValueError` configuration error synchronously, before anything is drawn —
the combination is never resolved by picking one mode. -/
theorem plot_dets_both_modes_error {I M : Type} (ops : YoloE.CvOps I M)
    (img : I) (dets : YoloE.Dets) (filt : Option (List String))
    (do_seg do_det do_label : Bool) (alpha : ℚ) (blur_sigma : Option ℚ) :
    YoloE.plot_dets ops img dets filt do_seg do_det do_label true true
      alpha blur_sigma
      = Except.error "remove_background and do_blur cannot both be True." :=
  rfl

/-- C2: for every processed frame, if rendering it raises an internal error
then `_data_sink` emits the unannotated source frame as the
`AnnotatedFrame` instead of propagating the exception. -/
theorem data_sink_render_failure_fallback {I M : Type}
    (ops : YoloE.CvOps I M) (orig_frame : I) (dets : YoloE.Dets)
    (sel : List String) (ds dd dl rb db : Bool) (dk bs : ℚ) (msg : String)
    (h : YoloE.plot_dets ops orig_frame dets (some sel) ds dd dl rb db dk
      (some bs) = Except.error msg) :
    YoloE.data_sink ops orig_frame dets sel ds dd dl rb db dk bs
      = { image := orig_frame } := by
  unfold YoloE.data_sink
  rw [h]

/-- Witness for C2 at a concrete input: rendering with both background
modes requested raises, and the sink emits the unannotated frame. -/
theorem data_sink_render_failure_fallback_wit :
    YoloE.plot_dets Concrete.cv_c_ops Concrete.c_img Concrete.c_dets_one
        (some ["person"]) true true true true true (3 / 10) (some 0)
      = Except.error "remove_background and do_blur cannot both be True." ∧
    YoloE.data_sink Concrete.cv_c_ops Concrete.c_img Concrete.c_dets_one
        ["person"] true true true true true (3 / 10) 0
      = { image := Concrete.c_img } :=
  ⟨rfl,
    data_sink_render_failure_fallback Concrete.cv_c_ops Concrete.c_img
      Concrete.c_dets_one ["person"] true true true true true (3 / 10) 0
      "remove_background and do_blur cannot both be True." rfl⟩

/-- Counterexample to C3 as stated: a non-black one-pixel frame with zero
detections, rendered under the accepted configuration
`remove_background = true, do_blur = false`, comes back as a black canvas,
not pixel-identical to the input. -/
theorem plot_dets_zero_dets_not_identity_cex :
    YoloE.plot_dets Concrete.cv_c_ops Concrete.c_img Concrete.c_dets_empty
        none true true true true false (1 / 4) (some 0)
      ≠ Except.ok Concrete.c_img := by
  decide

/-- C3 amended: with zero detections the rendered output is pixel-identical
to the input in the normal-background configurations, i.e. when
`remove_background = false` and blurring is inactive (`do_blur = false` or
a non-positive sigma); the mask-emptiness law is the behaviour of
`np.any` on a fresh zero mask. -/
theorem plot_dets_zero_dets_normal_background_identity {I M : Type}
    (ops : YoloE.CvOps I M) (img : I) (dets : YoloE.Dets)
    (filt : Option (List String)) (ds dd dl db : Bool) (alpha : ℚ)
    (σ : Option ℚ) (hitems : dets.items = [])
    (hmask : ops.any_mask
      (ops.empty_mask (ops.shape img).1 (ops.shape img).2) = false)
    (hblur : db = false ∨ σ.getD 0 ≤ 0) :
    YoloE.plot_dets ops img dets filt ds dd dl false db alpha σ
      = Except.ok img := by
  rcases hblur with hdb | hσ
  · subst hdb
    simp [YoloE.plot_dets, hitems, hmask]
    cases dd <;> cases dl <;> rfl
  · have hdec : decide (0 < σ.getD 0) = false := by
      simp only [decide_eq_false_iff_not, not_lt]
      exact hσ
    simp [YoloE.plot_dets, hitems, hmask, hdec]
    cases dd <;> cases dl <;> rfl

/-- Witness for the amended C3 at a concrete input: the black-mask law and
the blur condition hold concretely and the output equals the input. -/
theorem plot_dets_zero_dets_normal_background_identity_wit :
    Concrete.c_dets_empty.items = [] ∧
    Concrete.cv_c_ops.any_mask
      (Concrete.cv_c_ops.empty_mask
        (Concrete.cv_c_ops.shape Concrete.c_img).1
        (Concrete.cv_c_ops.shape Concrete.c_img).2) = false ∧
    YoloE.plot_dets Concrete.cv_c_ops Concrete.c_img Concrete.c_dets_empty
        none true true true false false (1 / 4) (some 0)
      = Except.ok Concrete.c_img :=
  ⟨rfl, by decide,
    plot_dets_zero_dets_normal_background_identity Concrete.cv_c_ops
      Concrete.c_img Concrete.c_dets_empty none true true true false (1 / 4)
      (some 0) rfl (by decide) (Or.inl rfl)⟩

/-- Counterexample to C10 as stated: with `remove_background = true` among
the remaining arguments, the call with `do_blur = true` and sigma 0 raises
the configuration error while the call with `do_blur = false` returns an
image, so the two calls do not produce the same output. -/
theorem plot_dets_blur_flag_cex :
    YoloE.plot_dets Concrete.cv_c_ops Concrete.c_img Concrete.c_dets_one
        none true true true true true (1 / 4) (some 0)
      ≠ YoloE.plot_dets Concrete.cv_c_ops Concrete.c_img Concrete.c_dets_one
        none true true true true false (1 / 4) (some 0) := by
  decide

/-- C10 amended: provided `remove_background = false`, calling `plot_dets`
with `do_blur = true` and a sigma of 0 (or `None`) produces exactly the
same result as calling it with `do_blur = false` and the same remaining
arguments — the background is the original image, not a blurred one. -/
theorem plot_dets_zero_sigma_blur_eq_no_blur {I M : Type}
    (ops : YoloE.CvOps I M) (img : I) (dets : YoloE.Dets)
    (filt : Option (List String)) (ds dd dl : Bool) (alpha : ℚ)
    (σ : Option ℚ) (hσ : σ = none ∨ σ = some 0) :
    YoloE.plot_dets ops img dets filt ds dd dl false true alpha σ
      = YoloE.plot_dets ops img dets filt ds dd dl false false alpha σ := by
  rcases hσ with h | h <;> subst h <;> simp [YoloE.plot_dets]

/-- Witness for the amended C10 at a concrete input. -/
theorem plot_dets_zero_sigma_blur_eq_no_blur_wit :
    ((some (0 : ℚ)) = none ∨ (some (0 : ℚ)) = some 0) ∧
    YoloE.plot_dets Concrete.cv_c_ops Concrete.c_img Concrete.c_dets_one
        none true true true false true (1 / 4) (some 0)
      = YoloE.plot_dets Concrete.cv_c_ops Concrete.c_img Concrete.c_dets_one
        none true true true false false (1 / 4) (some 0) :=
  ⟨Or.inr rfl,
    plot_dets_zero_sigma_blur_eq_no_blur Concrete.cv_c_ops Concrete.c_img
      Concrete.c_dets_one none true true true (1 / 4) (some 0) (Or.inr rfl)⟩

/-- Counterexample to C4 as stated: submitting to a stopped engine leaves
the engine exactly as it was — nothing is enqueued — and `put` (whose
Python body just executes `return` on this path) surfaces no error result
to the caller: the submission is silently dropped. -/
theorem put_after_stop_silent_cex :
    Concrete.c_engine_stopped.stopped = true ∧
    YoloE.put Concrete.c_engine_stopped 5 = Concrete.c_engine_stopped :=
  ⟨rfl, rfl⟩

/-- C4 amended: after `stop()` has completed, a submission returns normally
with the engine unchanged: no frame is enqueued and no error is raised or
returned — the frame is silently dropped, not explicitly rejected. -/
theorem put_after_stop_state_unchanged {α : Type} (e : YoloE.Engine α)
    (d : α) (h : e.stopped = true) : YoloE.put e d = e := by
  simp [YoloE.put, h]

/-- Witness for the amended C4 at a concrete input. -/
theorem put_after_stop_state_unchanged_wit :
    Concrete.c_engine_stopped.stopped = true ∧
    YoloE.put Concrete.c_engine_stopped 7 = Concrete.c_engine_stopped :=
  ⟨rfl, put_after_stop_state_unchanged Concrete.c_engine_stopped 7 rfl⟩

/-- C9: each configuration setter validates its argument — darkness outside
`[0, 1]`, a negative blur sigma, or a selected-class list containing a name
not in the current class list leaves the stored value unchanged (and, being
a total function, raises nothing) — while every in-range assignment stores
the assigned value. -/
theorem yoloe_setters_validate {α : Type} (e : YoloE.Engine α) (v w : ℚ)
    (cs : List String) :
    ((v < 0 ∨ 1 < v) → YoloE.set_darkness e v = e) ∧
    (0 ≤ v → v ≤ 1 → (YoloE.set_darkness e v).darkness = v) ∧
    (w < 0 → YoloE.set_blur_sigma e w = e) ∧
    (0 ≤ w → (YoloE.set_blur_sigma e w).blur_sigma = w) ∧
    ((∃ c ∈ cs, c ∉ e.classes) → YoloE.set_selected_classes e cs = e) ∧
    ((∀ c ∈ cs, c ∈ e.classes) →
      (YoloE.set_selected_classes e cs).selected_classes = cs) := by
  refine ⟨?_, ?_, ?_, ?_, ?_, ?_⟩
  · intro h
    simp [YoloE.set_darkness, h]
  · intro h1 h2
    have h : ¬(v < 0 ∨ 1 < v) := by
      push_neg
      exact ⟨h1, h2⟩
    simp [YoloE.set_darkness, h]
  · intro h
    simp [YoloE.set_blur_sigma, h]
  · intro h
    simp [YoloE.set_blur_sigma, not_lt.2 h]
  · rintro ⟨c, hc, hn⟩
    have h : ¬(∀ x ∈ cs, x ∈ e.classes) := fun hall => hn (hall c hc)
    simp [YoloE.set_selected_classes, h]
  · intro h
    unfold YoloE.set_selected_classes
    rw [if_pos h]

/-- Witness for C9 at concrete inputs: out-of-range assignments leave the
engine unchanged and in-range assignments store the value. -/
theorem yoloe_setters_validate_wit :
    YoloE.set_darkness Concrete.c_engine 2 = Concrete.c_engine ∧
    (YoloE.set_darkness Concrete.c_engine (1 / 2)).darkness = 1 / 2 ∧
    YoloE.set_blur_sigma Concrete.c_engine (-1) = Concrete.c_engine ∧
    (YoloE.set_blur_sigma Concrete.c_engine 2).blur_sigma = 2 ∧
    YoloE.set_selected_classes Concrete.c_engine ["dog"]
      = Concrete.c_engine ∧
    (YoloE.set_selected_classes Concrete.c_engine ["person"]).selected_classes
      = ["person"] :=
  ⟨(yoloe_setters_validate Concrete.c_engine 2 0 []).1 (Or.inr (by norm_num)),
    (yoloe_setters_validate Concrete.c_engine (1 / 2) 0 []).2.1 (by norm_num)
      (by norm_num),
    (yoloe_setters_validate Concrete.c_engine 0 (-1) []).2.2.1 (by norm_num),
    (yoloe_setters_validate Concrete.c_engine 0 2 []).2.2.2.1 (by norm_num),
    (yoloe_setters_validate Concrete.c_engine 0 0 ["dog"]).2.2.2.2.1
      ⟨"dog", by decide, by decide⟩,
    (yoloe_setters_validate Concrete.c_engine 0 0 ["person"]).2.2.2.2.2
      (by decide)⟩

/-- The state a successful `update_classes X` call leaves behind: queues and
counter drained, engine running again, all three class lists equal to X. -/
theorem update_classes_state {α : Type} (e : YoloE.Engine α)
    (X : List String) (h : YoloE.wf e) :
    (YoloE.update_classes e X).input_q = [] ∧
    (YoloE.update_classes e X).output_q = [] ∧
    (YoloE.update_classes e X).outstanding_frames = 0 ∧
    (YoloE.update_classes e X).stopped = false ∧
    (YoloE.update_classes e X).classes = X ∧
    (YoloE.update_classes e X).selected_classes = X ∧
    (YoloE.update_classes e X).predictor_classes = X := by
  have hs := YoloE.stop_spec e h
  have hcond : ∀ c ∈ X,
      c ∈ (YoloE.Engine.classes
        { YoloE.stop e with predictor_classes := X, classes := X }) :=
    fun _ hc => hc
  simp only [YoloE.update_classes, YoloE.set_selected_classes]
  rw [if_pos hcond]
  exact ⟨hs.1, hs.2.1, hs.2.2.1, trivial, rfl, rfl, rfl⟩

/-- C5: a successful `update_classes(X)` has drained every in-flight result
before the rebuild (zero frames outstanding, both queues empty), has every
class list equal to X, and — for every subsequent trace of submissions,
worker steps and retrievals — every frame delivered by `get` afterwards was
submitted after the reconfiguration and was processed against exactly the
class set X. -/
theorem update_classes_drain_and_isolation {α : Type} (e : YoloE.Engine α)
    (X : List String) (tr : List (YoloE.Ev α)) (h : YoloE.wf e) :
    (YoloE.update_classes e X).outstanding_frames = 0 ∧
    (YoloE.update_classes e X).input_q = [] ∧
    (YoloE.update_classes e X).output_q = [] ∧
    (YoloE.update_classes e X).stopped = false ∧
    (YoloE.update_classes e X).classes = X ∧
    (YoloE.update_classes e X).selected_classes = X ∧
    (YoloE.update_classes e X).predictor_classes = X ∧
    (∀ p ∈ (YoloE.run_trace (YoloE.update_classes e X) tr).2,
      p.2 = X ∧ p.1 ∈ YoloE.puts_of tr) := by
  have hst := update_classes_state e X h
  refine ⟨hst.2.2.1, hst.1, hst.2.1, hst.2.2.2.1, hst.2.2.2.2.1,
    hst.2.2.2.2.2.1, hst.2.2.2.2.2.2, ?_⟩
  have hout : ∀ p ∈ (YoloE.update_classes e X).output_q, p.2 = X := by
    intro p hp
    rw [hst.2.1] at hp
    cases hp
  have hrt := YoloE.run_trace_spec X tr (YoloE.update_classes e X)
    hst.2.2.2.2.2.2 hout
  intro p hp
  have hdel := hrt.1 p hp
  refine ⟨hdel.1, ?_⟩
  have hpool : YoloE.pool (YoloE.update_classes e X) = [] := by
    unfold YoloE.pool
    rw [hst.1, hst.2.1]
    rfl
  have := hdel.2
  rw [hpool] at this
  simpa using this

/-- A concrete post-reconfiguration trace: one submission, one worker step,
one retrieval. -/
def c_trace : List (YoloE.Ev Nat) :=
  [YoloE.Ev.put 7, YoloE.Ev.process, YoloE.Ev.get]

/-- Witness for C5 at a concrete input: a well-formed engine with three
frames in flight, reconfigured to `["dog"]` and then run on a concrete
trace. -/
theorem update_classes_drain_and_isolation_wit :
    YoloE.wf Concrete.c_engine ∧
    ((YoloE.update_classes Concrete.c_engine ["dog"]).outstanding_frames = 0 ∧
     (YoloE.update_classes Concrete.c_engine ["dog"]).input_q = [] ∧
     (YoloE.update_classes Concrete.c_engine ["dog"]).output_q = [] ∧
     (YoloE.update_classes Concrete.c_engine ["dog"]).stopped = false ∧
     (YoloE.update_classes Concrete.c_engine ["dog"]).classes = ["dog"] ∧
     (YoloE.update_classes Concrete.c_engine ["dog"]).selected_classes
       = ["dog"] ∧
     (YoloE.update_classes Concrete.c_engine ["dog"]).predictor_classes
       = ["dog"] ∧
     (∀ p ∈ (YoloE.run_trace (YoloE.update_classes Concrete.c_engine ["dog"])
         c_trace).2,
       p.2 = ["dog"] ∧ p.1 ∈ YoloE.puts_of c_trace)) :=
  ⟨⟨rfl, fun hc => nomatch hc⟩,
    update_classes_drain_and_isolation Concrete.c_engine ["dog"] c_trace
      ⟨rfl, fun hc => nomatch hc⟩⟩

namespace ImgSearch

theorem check_step_none (st : AlertState) (cur : List Nat)
    (fired : List String) (o : TrackedObject) (h : o.name = none) :
    check_step (st, cur, fired) o = (st, cur, fired) := by
  simp only [check_step, h]

theorem check_step_skip (st : AlertState) (cur : List Nat)
    (fired : List String) (o : TrackedObject) (n : String)
    (h : o.name = some n) (hc : ¬(n ≠ "" ∧ n ∈ st.search_targets)) :
    check_step (st, cur, fired) o = (st, cur, fired) := by
  simp only [check_step, h]
  rw [if_neg hc]

theorem check_step_hit_old (st : AlertState) (cur : List Nat)
    (fired : List String) (o : TrackedObject) (n : String)
    (h : o.name = some n) (hc : n ≠ "" ∧ n ∈ st.search_targets)
    (hm : o.track_id ∈ st.last_found_persons) :
    check_step (st, cur, fired) o
      = (st, if o.track_id ∈ cur then cur else cur ++ [o.track_id], fired) := by
  simp only [check_step, h]
  rw [if_pos hc, if_pos hm]

theorem check_step_hit_new (st : AlertState) (cur : List Nat)
    (fired : List String) (o : TrackedObject) (n : String)
    (h : o.name = some n) (hc : n ≠ "" ∧ n ∈ st.search_targets)
    (hm : o.track_id ∉ st.last_found_persons) :
    check_step (st, cur, fired) o
      = (trigger_security_alert st n,
         if o.track_id ∈ cur then cur else cur ++ [o.track_id],
         fired ++ [n]) := by
  simp only [check_step, h]
  rw [if_pos hc, if_neg hm]

theorem mem_insert_found (cur : List Nat) (j i : Nat) :
    i ∈ (if j ∈ cur then cur else cur ++ [j]) ↔ i ∈ cur ∨ i = j := by
  by_cases h : j ∈ cur
  · rw [if_pos h]
    constructor
    · exact Or.inl
    · rintro (hh | rfl)
      · exact hh
      · exact h
  · rw [if_neg h]
    simp

/-- The loop of `check_for_search_targets`, run over any prefix state: the
targets and previous found set are untouched, the triggered alerts are
appended in order and are exactly the new target sightings, and the
collected current set is the old one joined with the visible target ids. -/
theorem check_fold_spec (S : List String) (L : List Nat) :
    ∀ (tracked : List TrackedObject) (st : AlertState) (cur : List Nat)
      (fired : List String),
      st.search_targets = S → st.last_found_persons = L →
      (tracked.foldl check_step (st, cur, fired)).1.search_targets = S ∧
      (tracked.foldl check_step (st, cur, fired)).1.last_found_persons = L ∧
      (tracked.foldl check_step (st, cur, fired)).2.2
        = fired ++ new_target_names S L tracked ∧
      ∀ i, i ∈ (tracked.foldl check_step (st, cur, fired)).2.1 ↔
        i ∈ cur ∨ i ∈ visible_target_ids S tracked := by
  intro tracked
  induction tracked with
  | nil =>
    intro st cur fired h1 h2
    refine ⟨h1, h2, by simp [new_target_names], ?_⟩
    intro i
    simp [visible_target_ids]
  | cons o rest ih =>
    intro st cur fired h1 h2
    cases hname : o.name with
    | none =>
      rw [List.foldl_cons, check_step_none st cur fired o hname]
      have hres := ih st cur fired h1 h2
      refine ⟨hres.1, hres.2.1, ?_, ?_⟩
      · rw [hres.2.2.1]
        simp [new_target_names, List.filterMap_cons, hname]
      · intro i
        rw [hres.2.2.2 i]
        simp [visible_target_ids, List.filterMap_cons, hname]
    | some n =>
      by_cases hcnd : n ≠ "" ∧ n ∈ S
      · have hc : n ≠ "" ∧ n ∈ st.search_targets := by rw [h1]; exact hcnd
        have hvis : visible_target_ids S (o :: rest)
            = o.track_id :: visible_target_ids S rest := by
          unfold visible_target_ids
          rw [List.filterMap_cons, hname]
          simp only [Option.some_bind]
          rw [if_pos hcnd]
        by_cases hmem : o.track_id ∈ L
        · have hm : o.track_id ∈ st.last_found_persons := by
            rw [h2]; exact hmem
          rw [List.foldl_cons, check_step_hit_old st cur fired o n hname hc hm]
          have hres := ih st (if o.track_id ∈ cur then cur
            else cur ++ [o.track_id]) fired h1 h2
          refine ⟨hres.1, hres.2.1, ?_, ?_⟩
          · rw [hres.2.2.1]
            have hhd : (o.name.bind fun nn =>
                if nn ≠ "" ∧ nn ∈ S ∧ o.track_id ∉ L then some nn else none)
                  = none := by
              rw [hname]
              simp only [Option.some_bind]
              rw [if_neg]
              intro hcon
              exact hcon.2.2 hmem
            unfold new_target_names
            rw [List.filterMap_cons, hhd]
          · intro i
            rw [hres.2.2.2 i, hvis]
            rw [mem_insert_found]
            simp only [List.mem_cons]
            tauto
        · have hm : o.track_id ∉ st.last_found_persons := by
            rw [h2]; exact hmem
          rw [List.foldl_cons, check_step_hit_new st cur fired o n hname hc hm]
          have hres := ih (trigger_security_alert st n)
            (if o.track_id ∈ cur then cur else cur ++ [o.track_id])
            (fired ++ [n]) h1 h2
          refine ⟨hres.1, hres.2.1, ?_, ?_⟩
          · rw [hres.2.2.1]
            have hhd : (o.name.bind fun nn =>
                if nn ≠ "" ∧ nn ∈ S ∧ o.track_id ∉ L then some nn else none)
                  = some n := by
              rw [hname]
              simp only [Option.some_bind]
              rw [if_pos ⟨hcnd.1, hcnd.2, hmem⟩]
            unfold new_target_names
            rw [List.filterMap_cons, hhd]
            simp
          · intro i
            rw [hres.2.2.2 i, hvis]
            rw [mem_insert_found]
            simp only [List.mem_cons]
            tauto
      · have hc : ¬(n ≠ "" ∧ n ∈ st.search_targets) := by
          rw [h1]; exact hcnd
        rw [List.foldl_cons, check_step_skip st cur fired o n hname hc]
        have hres := ih st cur fired h1 h2
        refine ⟨hres.1, hres.2.1, ?_, ?_⟩
        · rw [hres.2.2.1]
          have hhd : (o.name.bind fun nn =>
              if nn ≠ "" ∧ nn ∈ S ∧ o.track_id ∉ L then some nn else none)
                = none := by
            rw [hname]
            simp only [Option.some_bind]
            rw [if_neg]
            intro hcon
            exact hcnd ⟨hcon.1, hcon.2.1⟩
          unfold new_target_names
          rw [List.filterMap_cons, hhd]
        · intro i
          rw [hres.2.2.2 i]
          have hhd : (o.name.bind fun nn =>
              if nn ≠ "" ∧ nn ∈ S then some o.track_id else none) = none := by
            rw [hname]
            simp only [Option.some_bind]
            rw [if_neg hcnd]
          unfold visible_target_ids
          rw [List.filterMap_cons, hhd]

/-- The alerts triggered by one evaluation are exactly the new target
sightings. -/
theorem check_snd_eq (s : AlertState) (tracked : List TrackedObject) :
    (check_for_search_targets s tracked).2 = alert_names s tracked := by
  unfold check_for_search_targets alert_names
  by_cases hS : s.search_targets = []
  · rw [if_pos hS, if_pos hS]
  · rw [if_neg hS, if_neg hS]
    exact (check_fold_spec s.search_targets s.last_found_persons tracked s
      [] [] rfl rfl).2.2.1.trans (by simp)

/-- One evaluation leaves the search-target set unchanged. -/
theorem check_fst_targets (s : AlertState) (tracked : List TrackedObject) :
    (check_for_search_targets s tracked).1.search_targets
      = s.search_targets := by
  unfold check_for_search_targets
  by_cases hS : s.search_targets = []
  · rw [if_pos hS]
  · rw [if_neg hS]
    exact (check_fold_spec s.search_targets s.last_found_persons tracked s
      [] [] rfl rfl).1

/-- After a (non-trivial) evaluation the stored found set is exactly the set
of currently visible target track ids. -/
theorem check_fst_found (s : AlertState) (tracked : List TrackedObject)
    (hS : s.search_targets ≠ []) :
    ∀ i, i ∈ (check_for_search_targets s tracked).1.last_found_persons ↔
      i ∈ visible_target_ids s.search_targets tracked := by
  intro i
  unfold check_for_search_targets
  rw [if_neg hS]
  have := (check_fold_spec s.search_targets s.last_found_persons tracked s
    [] [] rfl rfl).2.2.2 i
  simpa using this

end ImgSearch

/-- A concrete alert state searching for one name. -/
def c_alert_state : ImgSearch.AlertState :=
  { search_targets := ["Alice"]
    last_found_persons := []
    alert_active := false
    alert_message := none
    timer := none }

/-- One tracked object recognised as the search target. -/
def c_tracked : List ImgSearch.TrackedObject :=
  [{ track_id := 1, name := some "Alice" }]

/-- C6: one evaluation alerts exactly on the tracked objects whose name is a
currently searched target and whose track id was absent from the previous
frame's found set (and does nothing when no targets are set); the found set
becomes exactly the currently visible target ids, so re-evaluating the same
scene — same track ids — fires nothing further, while a fresh track id
fires anew; and each trigger activates the alert display and (re)starts the
single-shot five-second timer whose firing clears the alert state. -/
theorem check_for_search_targets_edge_triggered (s : ImgSearch.AlertState)
    (tracked : List ImgSearch.TrackedObject) (name : String) :
    (ImgSearch.check_for_search_targets s tracked).2
      = ImgSearch.alert_names s tracked ∧
    (s.search_targets = [] →
      ImgSearch.check_for_search_targets s tracked = (s, [])) ∧
    (s.search_targets ≠ [] → ∀ i,
      i ∈ (ImgSearch.check_for_search_targets s tracked).1.last_found_persons
        ↔ i ∈ ImgSearch.visible_target_ids s.search_targets tracked) ∧
    (ImgSearch.check_for_search_targets
      (ImgSearch.check_for_search_targets s tracked).1 tracked).2 = [] ∧
    (ImgSearch.trigger_security_alert s name).alert_active = true ∧
    (ImgSearch.trigger_security_alert s name).alert_message = some name ∧
    (ImgSearch.trigger_security_alert s name).timer = some 5000 ∧
    (ImgSearch.fire_timer
      (ImgSearch.trigger_security_alert s name)).alert_active = false ∧
    (ImgSearch.fire_timer
      (ImgSearch.trigger_security_alert s name)).timer = none := by
  refine ⟨ImgSearch.check_snd_eq s tracked, ?_, ImgSearch.check_fst_found s
    tracked, ?_, rfl, rfl, rfl, rfl, rfl⟩
  · intro hS
    unfold ImgSearch.check_for_search_targets
    rw [if_pos hS]
  · by_cases hS : s.search_targets = []
    · have h1 : ImgSearch.check_for_search_targets s tracked = (s, []) := by
        unfold ImgSearch.check_for_search_targets
        rw [if_pos hS]
      rw [h1]
      show (ImgSearch.check_for_search_targets s tracked).2 = []
      rw [ImgSearch.check_snd_eq s tracked]
      unfold ImgSearch.alert_names
      rw [if_pos hS]
    · have ht := ImgSearch.check_fst_targets s tracked
      rw [ImgSearch.check_snd_eq]
      unfold ImgSearch.alert_names
      rw [if_neg (fun hcon => hS (ht ▸ hcon))]
      unfold ImgSearch.new_target_names
      apply List.filterMap_eq_nil_iff.mpr
      intro o ho
      cases hname : o.name with
      | none => rfl
      | some n =>
        simp only [Option.some_bind]
        rw [if_neg]
        rintro ⟨hne, hmemT, hnot⟩
        apply hnot
        have hn : n ∈ s.search_targets := ht ▸ hmemT
        have hvis : o.track_id
            ∈ ImgSearch.visible_target_ids s.search_targets tracked := by
          unfold ImgSearch.visible_target_ids
          rw [List.mem_filterMap]
          refine ⟨o, ho, ?_⟩
          rw [hname]
          simp only [Option.some_bind]
          rw [if_pos ⟨hne, hn⟩]
        exact (ImgSearch.check_fst_found s tracked hS o.track_id).mpr hvis

/-- Witness for C6 at a concrete input: the first sighting of track 1 named
`Alice` fires exactly one alert, the found set now holds track 1, the same
scene re-evaluated fires nothing, and the timer firing clears the alert. -/
theorem check_for_search_targets_edge_triggered_wit :
    (ImgSearch.check_for_search_targets c_alert_state c_tracked).2
      = ["Alice"] ∧
    (1 ∈ (ImgSearch.check_for_search_targets c_alert_state
      c_tracked).1.last_found_persons) ∧
    (ImgSearch.check_for_search_targets
      (ImgSearch.check_for_search_targets c_alert_state c_tracked).1
      c_tracked).2 = [] ∧
    (ImgSearch.fire_timer (ImgSearch.trigger_security_alert c_alert_state
      "Alice")).alert_active = false := by
  have h := check_for_search_targets_edge_triggered c_alert_state c_tracked
    "Alice"
  refine ⟨h.1.trans (by decide), ?_, h.2.2.2.1, h.2.2.2.2.2.2.2.1⟩
  exact (h.2.2.1 (by decide) 1).mpr (by decide)

/-- C7 (latent collision bug): the synthetic enrollment entry is keyed by
the fixed integer 999, a value the live tracker can also assign; on a
tracker map already holding live track 999, starting an enrollment
overwrites the live entry with the synthetic object, and the enrollment's
cleanup then deletes the key — destroying the live track's state. -/
theorem manual_upload_id_collides_with_live_track :
    ImgSearch.manual_upload_track_id = 999 ∧
    ImgSearch.spec_live_track_id_reachable ImgSearch.manual_upload_track_id
      = true ∧
    ImgSearch.dict_get [((999 : Nat), "live-track")] 999 = some "live-track" ∧
    ImgSearch.dict_get
      (ImgSearch.enroll_map_insert [((999 : Nat), "live-track")] "synthetic")
      999 = some "synthetic" ∧
    ImgSearch.dict_get
      (ImgSearch.enroll_map_cleanup
        (ImgSearch.enroll_map_insert [((999 : Nat), "live-track")]
          "synthetic")) 999 = none := by
  refine ⟨rfl, rfl, ?_, ?_, ?_⟩ <;> decide

/-- An enrollment environment where the embedding arrives but the user
cancels the new-profile dialog (no directory selected, no target name). -/
def c_enroll_env_cancel : ImgSearch.EnrollEnv :=
  { put_raised := false
    poll_obs := [some [1]]
    selected_dir := none
    target_name := none
    add_profile_res := none
    db_path := "db"
    dir_on_disk := true
    existing_jpgs := [] }

/-- Counterexample to C8 as stated: an embedding with non-zero norm is
populated within the polling timeout, yet nothing is persisted — the
new-profile dialog was cancelled, so the call returns without writing any
image file or database entry. -/
theorem enroll_embedding_without_profile_not_saved :
    ImgSearch.poll_embedding c_enroll_env_cancel.poll_obs = some [1] ∧
    ImgSearch.process_face_like_mouse_click c_enroll_env_cancel
      = { saved_file := none, db_added := false } := by
  have hpoll : ImgSearch.poll_embedding [some [(1 : ℚ)]] = some [1] := by
    unfold ImgSearch.poll_embedding
    rw [if_pos]
    norm_num [ImgSearch.norm_sq]
  refine ⟨hpoll, ?_⟩
  unfold ImgSearch.process_face_like_mouse_click
  rw [if_neg (by simp [c_enroll_env_cancel])]
  show (match ImgSearch.poll_embedding [some [(1 : ℚ)]] with
    | none => ({ saved_file := none, db_added := false } :
        ImgSearch.EnrollOutcome)
    | some _ =>
      match ImgSearch.resolve_profile c_enroll_env_cancel with
      | none => { saved_file := none, db_added := false }
      | some (pp, on_disk) =>
        if on_disk ∧ pp ≠ c_enroll_env_cancel.db_path then
          { saved_file := some (pp,
              ImgSearch.next_free_index c_enroll_env_cancel.existing_jpgs),
            db_added := true }
        else { saved_file := none, db_added := false })
    = { saved_file := none, db_added := false }
  rw [hpoll]
  rfl

/-- C8 amended: an enrollment call persists (numbered image file plus
database entry, always together) precisely when recognition did not raise,
an embedding of non-zero norm was populated within the polling timeout, and
a profile directory was resolved that exists on disk and differs from the
gallery root; a recognition error or a poll timeout returns without raising
and without writing anything. -/
theorem enroll_persistence_condition (env : ImgSearch.EnrollEnv) :
    (env.put_raised = true →
      ImgSearch.process_face_like_mouse_click env
        = { saved_file := none, db_added := false }) ∧
    (ImgSearch.poll_embedding env.poll_obs = none →
      ImgSearch.process_face_like_mouse_click env
        = { saved_file := none, db_added := false }) ∧
    ((ImgSearch.process_face_like_mouse_click env).db_added = true ↔
      (ImgSearch.process_face_like_mouse_click env).saved_file ≠ none) ∧
    ((ImgSearch.process_face_like_mouse_click env).saved_file ≠ none ↔
      env.put_raised = false ∧
        (ImgSearch.poll_embedding env.poll_obs).isSome = true ∧
        ∃ pp, ImgSearch.resolve_profile env = some (pp, true)
          ∧ pp ≠ env.db_path) := by
  unfold ImgSearch.process_face_like_mouse_click
  cases hpr : env.put_raised with
  | true => simp [hpr]
  | false =>
    cases hpe : ImgSearch.poll_embedding env.poll_obs with
    | none => simp [hpe]
    | some emb =>
      cases hrp : ImgSearch.resolve_profile env with
      | none => simp [hpe, hrp]
      | some pb =>
        obtain ⟨pp, ex⟩ := pb
        by_cases hok : (ex = true) ∧ pp ≠ env.db_path
        · obtain ⟨hex, hne⟩ := hok
          subst hex
          simp [hpe, hrp, hne]
        · simp [hpe, hrp, hok]
          intro hex
          by_contra hne
          exact hok ⟨hex, hne⟩

/-- An enrollment environment where the poll loop times out: no embedding is
ever observed. -/
def c_enroll_env_timeout : ImgSearch.EnrollEnv :=
  { put_raised := false
    poll_obs := [none]
    selected_dir := none
    target_name := none
    add_profile_res := none
    db_path := "db"
    dir_on_disk := true
    existing_jpgs := [] }

/-- Witness for the amended C8 at a concrete input: a recognition timeout
makes the call return without persisting anything. -/
theorem enroll_persistence_condition_wit :
    ImgSearch.poll_embedding c_enroll_env_timeout.poll_obs = none ∧
    ImgSearch.process_face_like_mouse_click c_enroll_env_timeout
      = { saved_file := none, db_added := false } :=
  ⟨rfl, (enroll_persistence_condition c_enroll_env_timeout).2.1 rfl⟩
